import Mathlib

/-!
Shallow embedding of the Live Audio/Video Session Orchestrator of
`src/hooks/useLiveSession.ts` together with the log buffer of the host
application (`handleLog`), and proofs of the frozen claims about it.

Conventions of the embedding:
* Audio-timeline times and durations are rationals (seconds); the ducking
  hold timer lives on its own millisecond timeline, also rational.
* `activeAiSources` is an integer, decremented with `max 0 (c - 1)` exactly
  as the source's `Math.max(0, activeAiSourcesRef.current - 1)`.
* WebAudio buffer-source nodes are identified by natural numbers; the field
  `sources` models the set of created-and-still-playing nodes of the audio
  environment, while `activeAudioNodes` models the contents of
  `activeAudioNodesRef` (the set the interrupted handler stops).
* Gain nodes are modelled by their current target value (`setTargetAtTime`
  ramps towards the target; the target is the observable setting).
-/

namespace SynchroVerse

/-- The screen-audio input chain of the audio graph: the manual mute gain
node and the ducking fade gain node (`screenMuteGainNodeRef`,
`screenFadeGainNodeRef` in `useLiveSession.ts`), modelled by their
gain targets. -/
structure ScreenChain where
  muteGainTarget : ℚ
  fadeGainTarget : ℚ
  deriving Repr, DecidableEq

/-- Session-scoped mutable state of the orchestrator: the refs of
`useLiveSession.ts` that the claims are about. -/
structure OrchState where
  /-- `nextStartTimeRef`: the playback cursor on the output timeline. -/
  nextStartTime : ℚ
  /-- ids of nodes in `activeAudioNodesRef` (tracked for interruption). -/
  activeAudioNodes : List ℕ
  /-- ids of every created buffer-source node that is still playing
  (the audio environment, not a ref of the code). -/
  sources : List ℕ
  /-- `activeAiSourcesRef`: count of currently playing AI speech buffers. -/
  activeAiSources : ℤ
  /-- `duckingTimeoutRef`: expiry instant (ms) of the pending unduck timer. -/
  duckPending : Option ℚ
  /-- `isAiSpeaking` state flag. -/
  isAiSpeaking : Bool
  /-- `isDuckingRef`. -/
  isDucking : Bool
  /-- `configRef.current.enableDucking ?? true`. -/
  enableDucking : Bool
  /-- screen-audio chain, when attached. -/
  screenChain : Option ScreenChain
  /-- `micGainNodeRef`: mic mute gain target, when the node exists. -/
  micGain : Option ℚ
  /-- `isMuted` state flag. -/
  isMuted : Bool
  /-- `modelTranscriptionRef`. -/
  modelTranscription : String
  /-- `userTranscriptionRef`. -/
  userTranscription : String
  /-- `turnStartTimeRef`. -/
  turnStartTime : Option ℚ
  /-- whether a Cartesia client is attached (`cartesiaClientRef`). -/
  cartesiaConnected : Bool
  /-- Modelled from the spec: the context id of the third-party TTS
  socket; `src/utils/cartesiaClient.ts` is not in the source tree. -/
  cartesiaContextId : ℕ
  deriving Repr, DecidableEq

/-- `applyDucking(shouldDuck)` inside `updateDucking`
(`useLiveSession.ts:124-147`): early-returns when no screen fade gain node
exists; otherwise ramps the fade gain to `0.05` when ducking and enabled,
else to `1.0`, sets the AI-speaking flag, and records the ducking state. -/
def applyDucking (shouldDuck : Bool) (s : OrchState) : OrchState :=
  match s.screenChain with
  | none => s
  | some c =>
      { s with
        screenChain := some { c with
          fadeGainTarget := if shouldDuck && s.enableDucking then 1/20 else 1 },
        isAiSpeaking := shouldDuck,
        isDucking := shouldDuck }

/-- `updateDucking` (`useLiveSession.ts:115-160`): clears any pending
unduck timer; if any AI source is active, ducks immediately, otherwise
arms a 600 ms hold timer before unducking. `now` is the current wall
clock in milliseconds. -/
def updateDucking (now : ℚ) (s : OrchState) : OrchState :=
  if 0 < s.activeAiSources then
    applyDucking true { s with duckPending := none }
  else
    { s with duckPending := some (now + 600) }

/-- The pending unduck timer firing (`setTimeout` callback at
`useLiveSession.ts:155-157`): fires only if still armed and its expiry
has been reached, then unducks. -/
def fireDuckTimer (now : ℚ) (s : OrchState) : OrchState :=
  match s.duckPending with
  | none => s
  | some expiry =>
      if expiry ≤ now then applyDucking false { s with duckPending := none }
      else s

/-- Native-audio scheduling in the `onmessage` handler
(`useLiveSession.ts:701-741`): creates a buffer source, adds it to the
active set, clamps a stale cursor to the output clock plus a 50 ms
lookahead, starts the source at the cursor, advances the cursor by the
buffer's duration, increments the active-source count and updates
ducking. Returns the computed start time with the new state. -/
def scheduleNative (now clock dur : ℚ) (nid : ℕ) (s : OrchState) :
    ℚ × OrchState :=
  let s₁ := { s with
    sources := s.sources ++ [nid],
    activeAudioNodes := s.activeAudioNodes ++ [nid] }
  let cursor := if s₁.nextStartTime < clock then clock + 1/20 else s₁.nextStartTime
  let s₂ := { s₁ with
    nextStartTime := cursor + dur,
    activeAiSources := s₁.activeAiSources + 1 }
  (cursor, updateDucking now s₂)

/-- `handleCartesiaAudio` (`useLiveSession.ts:411-443`): wraps a raw
float frame in a buffer, creates a source (never added to
`activeAudioNodesRef`), clamps a stale cursor to the output clock (no
lookahead), starts at the cursor, advances the cursor by the buffer's
duration, increments the count and updates ducking. -/
def scheduleCartesia (now clock dur : ℚ) (nid : ℕ) (s : OrchState) :
    ℚ × OrchState :=
  let s₁ := { s with sources := s.sources ++ [nid] }
  let cursor := if s₁.nextStartTime < clock then clock else s₁.nextStartTime
  let s₂ := { s₁ with
    nextStartTime := cursor + dur,
    activeAiSources := s₁.activeAiSources + 1 }
  (cursor, updateDucking now s₂)

/-- A buffer's completion callback (`source.onended`,
`useLiveSession.ts:720-727` and `428-431`): decrements the active-source
count clamped at zero, updates ducking; the native path additionally
disconnects the node and removes it from the active set. The node stops
playing. -/
def onEnded (now : ℚ) (nid : ℕ) (isNative : Bool) (s : OrchState) : OrchState :=
  let s₁ := { s with activeAiSources := max 0 (s.activeAiSources - 1) }
  let s₂ := updateDucking now s₁
  if isNative then
    { s₂ with
      sources := s₂.sources.filter (fun m => m ≠ nid),
      activeAudioNodes := s₂.activeAudioNodes.filter (fun m => m ≠ nid) }
  else
    { s₂ with sources := s₂.sources.filter (fun m => m ≠ nid) }

/-- Modelled from the spec: `CartesiaClient.flush()`
(`src/utils/cartesiaClient.ts` is not in the source tree) cancels
in-flight synthesis and rotates the context id so prior audio cannot
resume under a stale label. -/
def cartesiaFlush (s : OrchState) : OrchState :=
  if s.cartesiaConnected then
    { s with cartesiaContextId := s.cartesiaContextId + 1 }
  else s

/-- The interrupted handler (`useLiveSession.ts:781-801`): clears the
model transcript and turn start time, stops and disconnects every node
in the active set and clears the set, zeroes the active-source count,
resets the cursor to the current output clock, updates ducking, and
flushes the Cartesia client. Nodes playing but absent from the active
set are not stopped. -/
def handleInterrupted (now clock : ℚ) (s : OrchState) : OrchState :=
  let s₁ := { s with modelTranscription := "", turnStartTime := none }
  let s₂ := { s₁ with
    sources := s₁.sources.filter (fun m => ¬ m ∈ s₁.activeAudioNodes),
    activeAudioNodes := [] }
  let s₃ := { s₂ with activeAiSources := 0, nextStartTime := clock }
  cartesiaFlush (updateDucking now s₃)

/-- `toggleMute` (`useLiveSession.ts:959-965`): flips the `isMuted` flag
and, when the mic gain node and audio context exist, ramps the mic gain
to 0 or 1 accordingly. -/
def toggleMute (s : OrchState) : OrchState :=
  let newMuted := !s.isMuted
  { s with
    isMuted := newMuted,
    micGain := s.micGain.map (fun _ => if newMuted then 0 else 1) }

/-- The signal contributed to the shared `ScriptProcessorNode` input for
one mic sample and one screen sample, following the wiring
`source → micGain → analyser → processor` and
`screenSource → screenAnalyser → screenMuteGain → screenFadeGain →
processor` (`useLiveSession.ts:575-578` and `604-607`). -/
def processorInput (s : OrchState) (mic scr : ℚ) : ℚ :=
  (match s.micGain with | some g => g * mic | none => 0) +
  (match s.screenChain with
   | some c => c.muteGainTarget * c.fadeGainTarget * scr
   | none => 0)

/-- `processor.onaudioprocess` (`useLiveSession.ts:562-573`): always
sends the processor's input as a PCM blob to the session — there is no
early return on `isMuted`. -/
def outboundFrame (s : OrchState) (mic scr : ℚ) : Option ℚ :=
  some (processorInput s mic scr)

/-! ### Event semantics for the active-source count and scheduling trace -/

/-- An event acting on the orchestrator state: a scheduling of a decoded
buffer on either path, a (possibly duplicate or late) completion
callback, or an interrupted message. -/
inductive AudioEvent where
  | schedNative (now clock dur : ℚ) (nid : ℕ)
  | schedCartesia (now clock dur : ℚ) (nid : ℕ)
  | ended (now : ℚ) (nid : ℕ) (isNative : Bool)
  | interrupted (now clock : ℚ)
  deriving Repr, DecidableEq

/-- Apply one event to the state. -/
def applyEvent (s : OrchState) : AudioEvent → OrchState
  | .schedNative now clock dur nid => (scheduleNative now clock dur nid s).2
  | .schedCartesia now clock dur nid => (scheduleCartesia now clock dur nid s).2
  | .ended now nid isNative => onEnded now nid isNative s
  | .interrupted now clock => handleInterrupted now clock s

/-- Apply a sequence of events in arrival order. -/
def runEvents (s : OrchState) (evs : List AudioEvent) : OrchState :=
  evs.foldl applyEvent s

/-- One buffer arrival to schedule: which path it takes, the wall clock
(ms), the output clock (s) at the moment of scheduling and the buffer's
duration (s). -/
structure SchedReq where
  native : Bool
  now : ℚ
  clock : ℚ
  dur : ℚ
  nid : ℕ
  deriving Repr, DecidableEq

/-- Schedule one arrival, returning its computed start time. -/
def schedStep (s : OrchState) (r : SchedReq) : ℚ × OrchState :=
  if r.native then scheduleNative r.now r.clock r.dur r.nid s
  else scheduleCartesia r.now r.clock r.dur r.nid s

/-- Schedule a sequence of arrivals in order, collecting each computed
start time with its request. -/
def schedTrace (s : OrchState) : List SchedReq → List (ℚ × SchedReq) × OrchState
  | [] => ([], s)
  | r :: rs =>
      let p := schedStep s r
      let q := schedTrace p.2 rs
      ((p.1, r) :: q.1, q.2)

/-! ### Sentiment tag extraction (`onmessage` turnComplete handler) -/

/-- ASCII lowercasing, as `String.prototype.toLowerCase` acts on the
characters involved here. -/
def toLowerChar (c : Char) : Char :=
  if 'A' ≤ c ∧ c ≤ 'Z' then Char.ofNat (c.toNat + 32) else c

/-- Case-insensitive character comparison (the regex `/i` flag). -/
def ciEq (a b : Char) : Bool :=
  toLowerChar a = toLowerChar b

/-- The five tag words of the regex alternation
`\[S:(POSITIVE|NEGATIVE|SURPRISED|NEUTRAL|EXCITED)\]`, in order. -/
def sentimentTags : List (List Char) :=
  ["POSITIVE".toList, "NEGATIVE".toList, "SURPRISED".toList,
   "NEUTRAL".toList, "EXCITED".toList]

/-- Strip a pattern case-insensitively from the front of a string,
returning the remainder on success. -/
def stripCI : List Char → List Char → Option (List Char)
  | [], s => some s
  | _ :: _, [] => none
  | p :: ps, c :: cs => if ciEq p c then stripCI ps cs else none

/-- Try each tag word of the alternation in order against the front of
the string; on success return the lowercased tag and the remainder. -/
def tryTags : List (List Char) → List Char → Option (List Char × List Char)
  | [], _ => none
  | t :: ts, s =>
      match stripCI t s with
      | some rest => some (t.map toLowerChar, rest)
      | none => tryTags ts s

/-- Match the full pattern `[S:(TAG)]` case-insensitively at the front of
the string. -/
def matchTagAt (s : List Char) : Option (List Char × List Char) :=
  match stripCI "[S:".toList s with
  | none => none
  | some rest =>
      match tryTags sentimentTags rest with
      | none => none
      | some (tag, rest₂) =>
          match stripCI "]".toList rest₂ with
          | none => none
          | some rest₃ => some (tag, rest₃)

/-- Scan for the first match of the tag pattern: return the lowercased
tag (if any) and the text with that first match removed — the combined
effect of `modelText.match(regex)` and `modelText.replace(regex, '')`
with a non-global regex (`useLiveSession.ts:757-761`). -/
def scanTag : List Char → Option (List Char) × List Char
  | [] => (none, [])
  | c :: cs =>
      match matchTagAt (c :: cs) with
      | some (tag, rest) => (some tag, rest)
      | none =>
          let p := scanTag cs
          (p.1, c :: p.2)

/-- Whitespace for the purposes of `String.prototype.trim` on the
characters involved here. -/
def isWs (c : Char) : Bool :=
  c = ' ' || c = '\t' || c = '\n' || c = '\r'

/-- Trim whitespace from both ends. -/
def trimWs (cs : List Char) : List Char :=
  ((cs.dropWhile isWs).reverse.dropWhile isWs).reverse

/-- The turnComplete handler's model-text processing
(`useLiveSession.ts:751-762`): trim the accumulated transcript, parse a
sentiment tag `[S:TAG]` out of it (first match, case-insensitive),
remove the tag from the displayed message and re-trim, and record the
lowercased tag; without a tag the sentiment stays undefined. -/
def processModelText (raw : String) : String × Option String :=
  let t := trimWs raw.toList
  match scanTag t with
  | (some tag, rest) => (String.mk (trimWs rest), some (String.mk tag))
  | (none, _) => (String.mk t, none)

/-- Whether the trimmed text contains a sentiment tag. -/
def hasSentimentTag (raw : String) : Bool :=
  (scanTag (trimWs raw.toList)).1.isSome

/-! ### Tool-call handling (`onmessage` toolCall handler) -/

/-- A registered tool: declaration name and executor; a throwing
executor is an `Except.error` carrying the thrown message. -/
structure ToolDef where
  name : String
  execute : String → Except String String

/-- One requested function call of a tool-call message. -/
structure FunctionCall where
  id : String
  name : String
  args : String
  deriving Repr, DecidableEq

/-- The `result` placed in a function response: either the executor's
output or an error payload. -/
inductive ToolResult where
  | ok (out : String)
  | err (msg : String)
  deriving Repr, DecidableEq

/-- The structured response returned for one call. -/
structure FunctionResponse where
  id : String
  name : String
  result : ToolResult
  deriving Repr, DecidableEq

/-- Resolution and execution of a single requested call
(`useLiveSession.ts:807-826`): look the tool up by declaration name;
absent tools yield a not-found error payload; a throwing executor yields
an error payload with the thrown message; otherwise the output is
returned. -/
def runCall (tools : List ToolDef) (call : FunctionCall) : FunctionResponse :=
  match tools.find? (fun t => t.name = call.name) with
  | none => ⟨call.id, call.name, .err ("Tool " ++ call.name ++ " not found")⟩
  | some t =>
      match t.execute call.args with
      | .ok out => ⟨call.id, call.name, .ok out⟩
      | .error e => ⟨call.id, call.name, .err e⟩

/-- The toolCall handler (`useLiveSession.ts:804-831`): one structured
response per requested call, in order. -/
def handleToolCall (tools : List ToolDef) (calls : List FunctionCall) :
    List FunctionResponse :=
  calls.map (runCall tools)

/-! ### Log buffer (`handleLog` in the host application) -/

/-- A log entry (`src/types.ts`). -/
structure LogEntry where
  timestamp : ℚ
  kind : String
  message : String
  sentiment : Option String := none
  deriving Repr, DecidableEq

/-- `handleLog` (`src/unnamed/part_001:113-121`): append the entry; if
the list then exceeds 100 entries, keep only the most recent 100
(`next.slice(next.length - 100)`). -/
def handleLog (prev : List LogEntry) (e : LogEntry) : List LogEntry :=
  let next := prev ++ [e]
  if next.length > 100 then next.drop (next.length - 100) else next

/-! ### Volume meter tick (`volumeIntervalRef` interval callback) -/

/-- The three reported loudness values. -/
structure Volumes where
  mic : ℚ
  screen : ℚ
  ai : ℚ
  deriving Repr, DecidableEq

/-- One 100 ms volume-meter tick (`useLiveSession.ts:621-664`),
parametric in the RMS computation `rms` (whose square root is
irrational-valued; only the branch structure on node existence matters
to the claims). Each channel with an existing analyser reports
`rms` of that analyser's time-domain data; the screen and AI-output
channels report 0 when their analyser is absent, while the mic branch
has no else-arm and leaves the previous value in place. -/
def volumeTick (rms : List ℕ → ℚ)
    (micA screenA outA : Option (List ℕ)) (prev : Volumes) : Volumes :=
  let v₁ := match micA with
    | some d => { prev with mic := rms d }
    | none => prev
  let v₂ := match screenA with
    | some d => { v₁ with screen := rms d }
    | none => { v₁ with screen := 0 }
  match outA with
  | some d => { v₂ with ai := rms d }
  | none => { v₂ with ai := 0 }

/-! ### Concrete sample data used by the witness theorems -/

/-- A freshly connected session with a Cartesia client attached. -/
def initState : OrchState where
  nextStartTime := 0
  activeAudioNodes := []
  sources := []
  activeAiSources := 0
  duckPending := none
  isAiSpeaking := false
  isDucking := false
  enableDucking := true
  screenChain := none
  micGain := some 1
  isMuted := false
  modelTranscription := ""
  userTranscription := ""
  turnStartTime := none
  cartesiaConnected := true
  cartesiaContextId := 0

/-- Projection of the state onto the components named by the
interruption-idempotence claim: active-node set, active-source count,
playback cursor, and the transcript accumulators with the turn start
time. -/
def interruptProj (s : OrchState) :
    List ℕ × ℤ × ℚ × String × String × Option ℚ :=
  (s.activeAudioNodes, s.activeAiSources, s.nextStartTime,
   s.modelTranscription, s.userTranscription, s.turnStartTime)

/-- A native-path buffer arrival: scheduled at output clock 1 s with
duration 2 s. -/
def reqA : SchedReq := ⟨true, 0, 1, 2, 1⟩

/-- A Cartesia-path buffer arrival: scheduled at output clock 2 s with
duration 3 s. -/
def reqB : SchedReq := ⟨false, 0, 2, 3, 2⟩

/-- A session with a screen-audio chain attached and one active AI
source. -/
def duckState : OrchState :=
  { initState with screenChain := some ⟨1, 1/2⟩, activeAiSources := 1 }

/-- A registered tool whose executor succeeds. -/
def demoOkTool : ToolDef := ⟨"get_time", fun _ => .ok "12:00"⟩

/-- A registered tool whose executor throws. -/
def demoBadTool : ToolDef := ⟨"change_voice", fun _ => .error "boom"⟩

/-- A two-entry tool catalog. -/
def demoTools : List ToolDef := [demoOkTool, demoBadTool]

/-- A call resolving to the succeeding tool. -/
def callOk : FunctionCall := ⟨"1", "get_time", "{}"⟩

/-- A call resolving to the throwing tool. -/
def callBad : FunctionCall := ⟨"2", "change_voice", "{}"⟩

/-- A call naming an unregistered tool. -/
def callMissing : FunctionCall := ⟨"3", "nope", "{}"⟩

/-- A log already at the 100-entry cap. -/
def fullLog : List LogEntry := List.replicate 100 ⟨0, "system", "m", none⟩

/-- An unmuted session with a screen-audio chain attached. -/
def unmutedState : OrchState :=
  { initState with screenChain := some ⟨1, 1/2⟩ }

/-! ### State-preservation lemmas -/

lemma applyDucking_core (b : Bool) (s : OrchState) :
    (applyDucking b s).nextStartTime = s.nextStartTime ∧
    (applyDucking b s).activeAiSources = s.activeAiSources ∧
    (applyDucking b s).sources = s.sources ∧
    (applyDucking b s).activeAudioNodes = s.activeAudioNodes ∧
    (applyDucking b s).duckPending = s.duckPending := by
  unfold applyDucking
  cases s.screenChain <;> simp

lemma updateDucking_core (now : ℚ) (s : OrchState) :
    (updateDucking now s).nextStartTime = s.nextStartTime ∧
    (updateDucking now s).activeAiSources = s.activeAiSources ∧
    (updateDucking now s).sources = s.sources ∧
    (updateDucking now s).activeAudioNodes = s.activeAudioNodes := by
  unfold updateDucking
  split
  · have h := applyDucking_core true { s with duckPending := none }
    simp only at h
    exact ⟨h.1, h.2.1, h.2.2.1, h.2.2.2.1⟩
  · simp

lemma cartesiaFlush_nextStartTime (s : OrchState) :
    (cartesiaFlush s).nextStartTime = s.nextStartTime := by
  unfold cartesiaFlush; split <;> rfl

lemma cartesiaFlush_activeAudioNodes (s : OrchState) :
    (cartesiaFlush s).activeAudioNodes = s.activeAudioNodes := by
  unfold cartesiaFlush; split <;> rfl

lemma cartesiaFlush_activeAiSources (s : OrchState) :
    (cartesiaFlush s).activeAiSources = s.activeAiSources := by
  unfold cartesiaFlush; split <;> rfl

lemma cartesiaFlush_modelTranscription (s : OrchState) :
    (cartesiaFlush s).modelTranscription = s.modelTranscription := by
  unfold cartesiaFlush; split <;> rfl

lemma cartesiaFlush_userTranscription (s : OrchState) :
    (cartesiaFlush s).userTranscription = s.userTranscription := by
  unfold cartesiaFlush; split <;> rfl

lemma cartesiaFlush_turnStartTime (s : OrchState) :
    (cartesiaFlush s).turnStartTime = s.turnStartTime := by
  unfold cartesiaFlush; split <;> rfl

lemma updateDucking_of_nonpos (now : ℚ) (s : OrchState)
    (h : s.activeAiSources ≤ 0) :
    updateDucking now s = { s with duckPending := some (now + 600) } := by
  unfold updateDucking
  rw [if_neg (not_lt.mpr h)]

/-! ### Scheduling-step lemmas -/

lemma schedStep_start_ge_clock (s : OrchState) (r : SchedReq) :
    r.clock ≤ (schedStep s r).1 := by
  unfold schedStep scheduleNative scheduleCartesia
  split <;> dsimp only <;> split <;> linarith

lemma schedStep_start_ge_cursor (s : OrchState) (r : SchedReq) :
    s.nextStartTime ≤ (schedStep s r).1 := by
  unfold schedStep scheduleNative scheduleCartesia
  split <;> dsimp only <;> split <;> linarith

lemma schedStep_cursor_advance (s : OrchState) (r : SchedReq) :
    ((schedStep s r).2).nextStartTime = (schedStep s r).1 + r.dur := by
  unfold schedStep scheduleNative scheduleCartesia
  split <;> dsimp only <;> split <;>
    simp [(updateDucking_core _ _).1]

lemma schedTrace_aux : ∀ (rs : List SchedReq) (s : OrchState),
    (∀ p ∈ (schedTrace s rs).1, p.2.clock ≤ p.1) ∧
    (∀ p ∈ (schedTrace s rs).1.head?, s.nextStartTime ≤ p.1) ∧
    List.Chain' (fun a b : ℚ × SchedReq => a.1 + a.2.dur ≤ b.1)
      (schedTrace s rs).1 := by
  intro rs
  induction rs with
  | nil => intro s; simp [schedTrace]
  | cons r rs ih =>
      intro s
      obtain ⟨ihmem, ihhead, ihchain⟩ := ih (schedStep s r).2
      refine ⟨?_, ?_, ?_⟩
      · intro p hp
        simp only [schedTrace, List.mem_cons] at hp
        rcases hp with h | h
        · subst h; exact schedStep_start_ge_clock s r
        · exact ihmem p h
      · intro p hp
        simp only [schedTrace, List.head?_cons, Option.mem_some_iff] at hp
        subst hp
        exact schedStep_start_ge_cursor s r
      · simp only [schedTrace]
        rw [List.chain'_cons']
        refine ⟨?_, ihchain⟩
        intro b hb
        have h₁ := ihhead b hb
        have h₂ := schedStep_cursor_advance s r
        rw [h₂] at h₁
        exact h₁

/-! ### Interruption and event-fold lemmas -/

lemma interruptProj_handleInterrupted (now clock : ℚ) (s : OrchState) :
    interruptProj (handleInterrupted now clock s)
      = ([], 0, clock, "", s.userTranscription, none) := by
  unfold handleInterrupted interruptProj
  simp [updateDucking_of_nonpos, cartesiaFlush_nextStartTime,
    cartesiaFlush_activeAudioNodes, cartesiaFlush_activeAiSources,
    cartesiaFlush_modelTranscription, cartesiaFlush_userTranscription,
    cartesiaFlush_turnStartTime]

lemma onEnded_activeAiSources (now : ℚ) (nid : ℕ) (b : Bool) (s : OrchState) :
    (onEnded now nid b s).activeAiSources
      = max 0 (s.activeAiSources - 1) := by
  unfold onEnded
  split <;> simp [(updateDucking_core _ _).2.1]

lemma applyEvent_count_nonneg (s : OrchState) (ev : AudioEvent)
    (h : 0 ≤ s.activeAiSources) :
    0 ≤ (applyEvent s ev).activeAiSources := by
  cases ev with
  | schedNative now clock dur nid =>
      unfold applyEvent scheduleNative
      dsimp only
      rw [(updateDucking_core _ _).2.1]
      dsimp only
      linarith
  | schedCartesia now clock dur nid =>
      unfold applyEvent scheduleCartesia
      dsimp only
      rw [(updateDucking_core _ _).2.1]
      dsimp only
      linarith
  | ended now nid b =>
      unfold applyEvent
      rw [onEnded_activeAiSources]
      exact le_max_left 0 _
  | interrupted now clock =>
      unfold applyEvent
      have h := interruptProj_handleInterrupted now clock s
      unfold interruptProj at h
      have := congrArg (fun p => p.2.1) h
      simp only at this
      rw [this]

/-! ### Claim theorems -/

/-- C1: within one session, every decoded speech buffer scheduled in
arrival order — on the native-audio path or the Cartesia path — starts
no earlier than the output clock at the moment of scheduling and no
earlier than the cursor (hence no earlier than the previous buffer's
start time plus its duration), and after each scheduling the cursor
equals that buffer's start time plus its duration. -/
theorem c1_playback_monotonicity :
    (∀ (s : OrchState) (r : SchedReq),
        r.clock ≤ (schedStep s r).1 ∧
        s.nextStartTime ≤ (schedStep s r).1 ∧
        ((schedStep s r).2).nextStartTime = (schedStep s r).1 + r.dur) ∧
    (∀ (s : OrchState) (rs : List SchedReq),
        (∀ p ∈ (schedTrace s rs).1, p.2.clock ≤ p.1) ∧
        List.Chain' (fun a b : ℚ × SchedReq => a.1 + a.2.dur ≤ b.1)
          (schedTrace s rs).1) := by
  constructor
  · intro s r
    exact ⟨schedStep_start_ge_clock s r, schedStep_start_ge_cursor s r,
      schedStep_cursor_advance s r⟩
  · intro s rs
    obtain ⟨h1, _, h3⟩ := schedTrace_aux rs s
    exact ⟨h1, h3⟩

theorem c1_playback_monotonicity_witness :
    ((schedTrace initState [reqA, reqB]).1.get ⟨0, by decide⟩).2.clock
      ≤ ((schedTrace initState [reqA, reqB]).1.get ⟨0, by decide⟩).1 ∧
    ((schedTrace initState [reqA, reqB]).1.get ⟨1, by decide⟩).2.clock
      ≤ ((schedTrace initState [reqA, reqB]).1.get ⟨1, by decide⟩).1 :=
  ⟨(c1_playback_monotonicity.2 initState [reqA, reqB]).1 _
      (List.get_mem _ _ _),
   (c1_playback_monotonicity.2 initState [reqA, reqB]).1 _
      (List.get_mem _ _ _)⟩

/-- C2: with a screen chain attached and ducking enabled, a call of the
ducking controller while the active-source count is positive engages
immediately (fade gain ramped to the 0.05 target, AI-speaking flag set)
and cancels any pending unduck timer; a call at count zero only arms a
600 ms hold timer without changing the engaged state; disengaging
(flag cleared, gain back to 1) happens only when an armed timer reaches
its expiry, and a cancelled timer slot never disengages. -/
theorem c2_ducking_hysteresis :
    (∀ (s : OrchState) (c : ScreenChain) (now : ℚ),
        s.screenChain = some c → s.enableDucking = true →
        0 < s.activeAiSources →
        (updateDucking now s).isAiSpeaking = true ∧
        (updateDucking now s).screenChain
          = some { c with fadeGainTarget := 1/20 } ∧
        (updateDucking now s).duckPending = none) ∧
    (∀ (s : OrchState) (now : ℚ), s.activeAiSources ≤ 0 →
        (updateDucking now s).duckPending = some (now + 600) ∧
        (updateDucking now s).isAiSpeaking = s.isAiSpeaking ∧
        (updateDucking now s).screenChain = s.screenChain) ∧
    (∀ (s : OrchState) (e t : ℚ), s.duckPending = some e → t < e →
        fireDuckTimer t s = s) ∧
    (∀ (s : OrchState) (c : ScreenChain) (e t : ℚ),
        s.screenChain = some c → s.duckPending = some e → e ≤ t →
        (fireDuckTimer t s).isAiSpeaking = false ∧
        (fireDuckTimer t s).screenChain
          = some { c with fadeGainTarget := 1 }) ∧
    (∀ (s : OrchState) (t : ℚ), s.duckPending = none →
        fireDuckTimer t s = s) := by
  refine ⟨?_, ?_, ?_, ?_, ?_⟩
  · intro s c now hc he hcount
    unfold updateDucking applyDucking
    rw [if_pos hcount]
    simp only [hc, he]
    simp
  · intro s now h
    unfold updateDucking
    rw [if_neg (not_lt.mpr h)]
    simp
  · intro s e t hp ht
    unfold fireDuckTimer
    rw [hp]
    simp [not_le.mpr ht]
  · intro s c e t hc hp het
    unfold fireDuckTimer applyDucking
    simp only [hp]
    simp [hc, het]
  · intro s t h
    unfold fireDuckTimer
    rw [h]

theorem c2_ducking_hysteresis_witness :
    (updateDucking 0 duckState).isAiSpeaking = true ∧
    (updateDucking 0 duckState).duckPending = none ∧
    (updateDucking 5 initState).duckPending = some (5 + 600) :=
  ⟨(c2_ducking_hysteresis.1 duckState ⟨1, 1/2⟩ 0 rfl rfl (by decide)).1,
   (c2_ducking_hysteresis.1 duckState ⟨1, 1/2⟩ 0 rfl rfl (by decide)).2.2,
   (c2_ducking_hysteresis.2.1 initState 5 (by decide)).1⟩

/-- C3: at the failing input — one Cartesia frame of duration 2 s
scheduled as node 1, then an interrupted message while it plays — the
node is still playing after the interrupt (it was never added to the
active set, so it is never stopped), although the count was zeroed and
the active set cleared; the same interrupt does stop a native-path
node. This contradicts the claim that the interrupt stops every
scheduled, unfinished buffer on both TTS paths. -/
theorem c3_interrupt_misses_cartesia_buffer :
    (1 ∈ (handleInterrupted 10 (1/2)
        (scheduleCartesia 0 0 2 1 initState).2).sources ∧
     (handleInterrupted 10 (1/2)
        (scheduleCartesia 0 0 2 1 initState).2).activeAiSources = 0 ∧
     (handleInterrupted 10 (1/2)
        (scheduleCartesia 0 0 2 1 initState).2).activeAudioNodes = []) ∧
    (handleInterrupted 10 (1/2)
        (scheduleNative 0 0 2 1 initState).2).sources = [] := by
  decide

/-- C4: handling an interruption when the active-source count is zero
and the active-node set is empty resets the cursor to the output clock,
leaving the cursor position relative to the output clock unchanged for
every later scheduling instant; and handling two interruptions in
succession yields the same active-node set, count, cursor and
transcript accumulators as handling one. -/
theorem c4_interrupt_idempotent :
    (∀ (s : OrchState) (now clock : ℚ),
        s.activeAiSources = 0 → s.activeAudioNodes = [] →
        s.nextStartTime ≤ clock →
        (handleInterrupted now clock s).nextStartTime = clock ∧
        (∀ t, clock ≤ t →
            max (handleInterrupted now clock s).nextStartTime t
              = max s.nextStartTime t)) ∧
    (∀ (s : OrchState) (now clock : ℚ),
        interruptProj (handleInterrupted now clock
            (handleInterrupted now clock s))
          = interruptProj (handleInterrupted now clock s)) := by
  have hproj := interruptProj_handleInterrupted
  constructor
  · intro s now clock hcount hnodes hle
    have hcursor : (handleInterrupted now clock s).nextStartTime = clock := by
      have h := hproj now clock s
      unfold interruptProj at h
      exact congrArg (fun p => p.2.2.1) h
    refine ⟨hcursor, ?_⟩
    intro t ht
    rw [hcursor, max_eq_right ht, max_eq_right (le_trans hle ht)]
  · intro s now clock
    have huser : (handleInterrupted now clock s).userTranscription
        = s.userTranscription := by
      have h := hproj now clock s
      unfold interruptProj at h
      exact congrArg (fun p => p.2.2.2.2.1) h
    rw [hproj, hproj, huser]

theorem c4_interrupt_idempotent_witness :
    (handleInterrupted 5 1 initState).nextStartTime = 1 ∧
    max (handleInterrupted 5 1 initState).nextStartTime 2
      = max initState.nextStartTime 2 ∧
    interruptProj (handleInterrupted 5 1 (handleInterrupted 5 1 initState))
      = interruptProj (handleInterrupted 5 1 initState) :=
  ⟨(c4_interrupt_idempotent.1 initState 5 1 rfl rfl (by decide)).1,
   (c4_interrupt_idempotent.1 initState 5 1 rfl rfl (by decide)).2 2
      (by decide),
   c4_interrupt_idempotent.2 initState 5 1⟩

/-- C5: the active-source count never becomes negative: starting from a
non-negative count, any interleaving of native or Cartesia scheduling,
completion callbacks (including duplicate or late ones arriving after
an interrupt force-zeroed the count) and interruption handling leaves
the count non-negative, every decrement being clamped at 0. -/
theorem c5_active_source_count_nonneg :
    ∀ (s : OrchState) (evs : List AudioEvent),
      0 ≤ s.activeAiSources → 0 ≤ (runEvents s evs).activeAiSources := by
  intro s evs
  induction evs generalizing s with
  | nil => intro h; exact h
  | cons ev evs ih =>
      intro h
      exact ih _ (applyEvent_count_nonneg s ev h)

theorem c5_active_source_count_nonneg_witness :
    0 ≤ (runEvents initState
        [.schedCartesia 0 0 2 1, .ended 1 1 false, .ended 2 1 false,
         .interrupted 3 1, .ended 4 7 true]).activeAiSources :=
  c5_active_source_count_nonneg initState _ (by decide)

/-- C6: on turnComplete, a trailing sentiment tag of the form
`[S:TAG]` with TAG among POSITIVE, NEGATIVE, SURPRISED, NEUTRAL,
EXCITED is parsed out of the accumulated model text, removed from the
logged message, and recorded as the lowercase sentiment; in particular
the model text with a trailing `[S:EXCITED]` logs the bare message with
sentiment excited, the same holds for each of the five tags, and text
containing no tag logs with sentiment undefined. -/
theorem c6_sentiment_tag_extraction :
    processModelText "Nice catch! [S:EXCITED]"
      = ("Nice catch!", some "excited") ∧
    processModelText "Nice catch!" = ("Nice catch!", none) ∧
    (∀ tag ∈ sentimentTags,
        processModelText
            (String.mk ("Nice catch! [S:".toList ++ tag ++ "]".toList))
          = ("Nice catch!", some (String.mk (tag.map toLowerChar)))) ∧
    (∀ raw, hasSentimentTag raw = false →
        (processModelText raw).2 = none) := by
  refine ⟨by decide, by decide, by decide, ?_⟩
  intro raw h
  unfold processModelText
  unfold hasSentimentTag at h
  dsimp only
  rcases hs : scanTag (trimWs raw.toList) with ⟨o, rest⟩
  rw [hs] at h
  cases o with
  | some tag => simp at h
  | none => rfl

theorem c6_sentiment_tag_extraction_witness :
    processModelText
        (String.mk ("Nice catch! [S:".toList ++ "NEUTRAL".toList
          ++ "]".toList))
      = ("Nice catch!", some (String.mk ("NEUTRAL".toList.map toLowerChar))) ∧
    (processModelText "All clear.").2 = none :=
  ⟨c6_sentiment_tag_extraction.2.2.1 "NEUTRAL".toList (by decide),
   c6_sentiment_tag_extraction.2.2.2 "All clear." (by decide)⟩

/-- C7: every tool-call message receives exactly one structured
response per requested call, position by position; a call naming an
unregistered tool yields a not-found error payload rather than
throwing; a call whose executor throws yields an error payload carrying
the thrown message; a succeeding call yields its output; and the batch
is a pointwise map, so one call's failure cannot affect another call's
response. -/
theorem c7_tool_call_isolation :
    (∀ (tools : List ToolDef) (calls : List FunctionCall),
        (handleToolCall tools calls).length = calls.length) ∧
    (∀ (tools : List ToolDef) (calls : List FunctionCall) (i : ℕ),
        (handleToolCall tools calls)[i]?
          = (calls[i]?).map (runCall tools)) ∧
    (∀ (tools : List ToolDef) (call : FunctionCall),
        tools.find? (fun t => t.name = call.name) = none →
        runCall tools call
          = ⟨call.id, call.name,
             .err ("Tool " ++ call.name ++ " not found")⟩) ∧
    (∀ (tools : List ToolDef) (t : ToolDef) (call : FunctionCall)
        (emsg : String),
        tools.find? (fun u => u.name = call.name) = some t →
        t.execute call.args = .error emsg →
        runCall tools call = ⟨call.id, call.name, .err emsg⟩) ∧
    (∀ (tools : List ToolDef) (t : ToolDef) (call : FunctionCall)
        (out : String),
        tools.find? (fun u => u.name = call.name) = some t →
        t.execute call.args = .ok out →
        runCall tools call = ⟨call.id, call.name, .ok out⟩) ∧
    (∀ (tools : List ToolDef) (pre : List FunctionCall) (c : FunctionCall)
        (post : List FunctionCall),
        handleToolCall tools (pre ++ c :: post)
          = handleToolCall tools pre
              ++ runCall tools c :: handleToolCall tools post) := by
  refine ⟨?_, ?_, ?_, ?_, ?_, ?_⟩
  · intro tools calls
    simp [handleToolCall]
  · intro tools calls i
    simp [handleToolCall, List.getElem?_map]
  · intro tools call h
    unfold runCall
    rw [h]
  · intro tools t call emsg hf he
    unfold runCall
    rw [hf]
    dsimp only
    rw [he]
  · intro tools t call out hf ho
    unfold runCall
    rw [hf]
    dsimp only
    rw [ho]
  · intro tools pre c post
    simp [handleToolCall]

theorem c7_tool_call_isolation_witness :
    runCall demoTools callMissing
      = ⟨"3", "nope", .err "Tool nope not found"⟩ ∧
    runCall demoTools callBad = ⟨"2", "change_voice", .err "boom"⟩ ∧
    runCall demoTools callOk = ⟨"1", "get_time", .ok "12:00"⟩ :=
  ⟨c7_tool_call_isolation.2.2.1 demoTools callMissing rfl,
   c7_tool_call_isolation.2.2.2.1 demoTools demoBadTool callBad "boom"
      rfl rfl,
   c7_tool_call_isolation.2.2.2.2.1 demoTools demoOkTool callOk "12:00"
      rfl rfl⟩

/-- C8: appending to a log below the 100-entry cap keeps every entry in
order; appending the 101st entry to a log of exactly 100 evicts exactly
the oldest entry, preserving the order of the remaining entries; and
the log length never exceeds 100. -/
theorem c8_log_cap :
    (∀ (prev : List LogEntry) (e : LogEntry), prev.length < 100 →
        handleLog prev e = prev ++ [e]) ∧
    (∀ (prev : List LogEntry) (e : LogEntry), prev.length = 100 →
        handleLog prev e = prev.drop 1 ++ [e]) ∧
    (∀ (prev : List LogEntry) (e : LogEntry), prev.length ≤ 100 →
        (handleLog prev e).length ≤ 100) := by
  refine ⟨?_, ?_, ?_⟩
  · intro prev e h
    unfold handleLog
    dsimp only
    rw [if_neg]
    simp
    omega
  · intro prev e h
    unfold handleLog
    dsimp only
    rw [if_pos]
    · rw [List.length_append, h]
      norm_num
      rw [List.tail_append_singleton_of_ne_nil]
      intro hnil
      rw [hnil] at h
      simp at h
    · simp [h]
  · intro prev e h
    unfold handleLog
    dsimp only
    split
    · rename_i hgt
      rw [List.length_drop]
      omega
    · rename_i hle
      simp at hle ⊢
      omega

theorem c8_log_cap_witness :
    handleLog fullLog ⟨1, "user", "n", none⟩
      = fullLog.drop 1 ++ [⟨1, "user", "n", none⟩] ∧
    (handleLog fullLog ⟨1, "user", "n", none⟩).length ≤ 100 :=
  ⟨c8_log_cap.2.1 fullLog ⟨1, "user", "n", none⟩ (by simp [fullLog]),
   c8_log_cap.2.2 fullLog ⟨1, "user", "n", none⟩ (by simp [fullLog])⟩

/-- C9 counterexample: with all three analysis nodes absent and a
previous mic loudness of 1/2, the tick leaves the mic value at 1/2
instead of reporting 0 — the mic branch of the interval callback has no
else-arm, so the claim that every channel with a missing analysis node
reports 0 fails for the mic channel. -/
theorem c9_mic_channel_not_zeroed :
    (volumeTick (fun _ => 0) none none none ⟨1/2, 1/2, 1/2⟩).mic = 1/2 ∧
    ((1 : ℚ)/2) ≠ 0 := by
  constructor
  · rfl
  · norm_num

/-- C9 amended: on every volume-meter tick, the screen and AI-output
channels report 0 when their analysis node does not exist, while the
mic channel leaves the previously reported value unchanged when its
node is missing and reports the RMS of its node's data otherwise. -/
theorem c9_missing_node_reports :
    (∀ (rms : List ℕ → ℚ) (micA outA : Option (List ℕ)) (prev : Volumes),
        (volumeTick rms micA none outA prev).screen = 0) ∧
    (∀ (rms : List ℕ → ℚ) (micA screenA : Option (List ℕ))
        (prev : Volumes),
        (volumeTick rms micA screenA none prev).ai = 0) ∧
    (∀ (rms : List ℕ → ℚ) (screenA outA : Option (List ℕ))
        (prev : Volumes),
        (volumeTick rms none screenA outA prev).mic = prev.mic) ∧
    (∀ (rms : List ℕ → ℚ) (d : List ℕ) (screenA outA : Option (List ℕ))
        (prev : Volumes),
        (volumeTick rms (some d) screenA outA prev).mic = rms d) := by
  refine ⟨?_, ?_, ?_, ?_⟩
  · intro rms micA outA prev
    unfold volumeTick
    cases micA <;> cases outA <;> rfl
  · intro rms micA screenA prev
    unfold volumeTick
    cases micA <;> cases screenA <;> rfl
  · intro rms screenA outA prev
    unfold volumeTick
    cases screenA <;> cases outA <;> rfl
  · intro rms d screenA outA prev
    unfold volumeTick
    cases screenA <;> cases outA <;> rfl

/-- C10: toggling the microphone mute changes only the isMuted flag and
the mic gain target; the screen chain, cursor, active sets, count,
ducking state and transcripts are untouched; the processor keeps
sending an outbound frame regardless of mute; and with the mic freshly
muted an attached screen chain's contribution still reaches the
outbound stream unattenuated by the mic gain. -/
theorem c10_toggle_mute_frame :
    ∀ s : OrchState,
      (toggleMute s).screenChain = s.screenChain ∧
      (toggleMute s).nextStartTime = s.nextStartTime ∧
      (toggleMute s).activeAudioNodes = s.activeAudioNodes ∧
      (toggleMute s).sources = s.sources ∧
      (toggleMute s).activeAiSources = s.activeAiSources ∧
      (toggleMute s).duckPending = s.duckPending ∧
      (toggleMute s).isAiSpeaking = s.isAiSpeaking ∧
      (toggleMute s).isMuted = !s.isMuted ∧
      (toggleMute s).micGain
        = s.micGain.map (fun _ => if !s.isMuted then 0 else 1) ∧
      (∀ mic scr : ℚ, outboundFrame (toggleMute s) mic scr
          = some (processorInput (toggleMute s) mic scr)) ∧
      (∀ (c : ScreenChain) (g mic scr : ℚ),
          s.screenChain = some c → s.micGain = some g → s.isMuted = false →
          outboundFrame (toggleMute s) mic scr
            = some (c.muteGainTarget * c.fadeGainTarget * scr)) := by
  intro s
  refine ⟨rfl, rfl, rfl, rfl, rfl, rfl, rfl, rfl, rfl,
    fun mic scr => rfl, ?_⟩
  intro c g mic scr hc hg hm
  unfold outboundFrame processorInput toggleMute
  simp [hc, hg, hm]

theorem c10_toggle_mute_frame_witness :
    outboundFrame (toggleMute unmutedState) 7 4
      = some ((1 : ℚ) * (1/2) * 4) :=
  (c10_toggle_mute_frame unmutedState).2.2.2.2.2.2.2.2.2.2
    ⟨1, 1/2⟩ 1 7 4 rfl rfl rfl

end SynchroVerse
